import Mathlib

/-!
Verification of the Sequence-Labeling-LLMs repository utilities.

We shallowly embed the two source files:
- `temp.py`: a CoNLL-style tagged-file reader/writer and a seeded 80/20
  index split of a sentence dataset;
- `load_model.py`: model-loading configuration helpers (device-map
  selection, quantization-argument validation, BitsAndBytes config
  construction, tokenizer pad-token fallback).

Python strings are modelled as `List Char`; files are modelled as lists
of newline-free lines (Python text-mode line iteration with the trailing
newline removed, which `str.strip()` would delete anyway).  Python
exceptions are modelled with `Except`.
-/

namespace SeqLabel

/-- A Python string, as a list of characters. -/
abbrev Str := List Char

/-- The ASCII whitespace characters stripped by Python `str.strip()`
(`str.strip` also strips some further Unicode whitespace, which we do not
model; none of the inputs in the claims involve it). -/
def isPySpace (c : Char) : Bool :=
  c = ' ' || c = '\t' || c = '\n' || c = '\r' || c = '\x0b' || c = '\x0c'

/-- Python `line.strip()`: remove leading and trailing whitespace. -/
def strip (l : Str) : Str :=
  ((l.dropWhile isPySpace).reverse.dropWhile isPySpace).reverse

/-- Python `s.split("\t")`: split on every tab character; always returns at
least one (possibly empty) field. -/
def splitTab : Str → List Str
  | [] => [[]]
  | c :: rest =>
    if c = '\t' then [] :: splitTab rest
    else
      match splitTab rest with
      | [] => [[c]]
      | p :: ps => (c :: p) :: ps

/-- Digit-sequence check for Python `int(str)` after the first character:
digits, with single underscores allowed only between digits. -/
def pyDigitsTail : List Char → Bool
  | [] => true
  | '_' :: rest =>
    match rest with
    | [] => false
    | c :: _ => c.isDigit && pyDigitsTail rest
  | c :: rest => c.isDigit && pyDigitsTail rest

/-- A valid Python base-10 digit sequence: nonempty, starts with a digit,
underscores only between digits. -/
def pyDigits : List Char → Bool
  | [] => false
  | c :: rest => c.isDigit && pyDigitsTail rest

/-- Numeric value of a digit sequence, ignoring underscores. -/
def pyDigitsVal (l : List Char) : Nat :=
  (l.filter (fun c => c ≠ '_')).foldl (fun a c => 10 * a + (c.toNat - '0'.toNat)) 0

/-- Python `int(s)` for a string `s` (base 10): strip whitespace, optional
sign, digits with internal underscores; `none` models the `ValueError`
raised on any other input.  (Non-ASCII Unicode digits are not modelled.) -/
def pyIntOfString (s : String) : Option Int :=
  match strip s.toList with
  | [] => Option.none
  | c :: rest =>
    if c = '-' then
      if pyDigits rest then Option.some (-(pyDigitsVal rest : Int)) else Option.none
    else if c = '+' then
      if pyDigits rest then Option.some (pyDigitsVal rest : Int) else Option.none
    else
      if pyDigits (c :: rest) then Option.some (pyDigitsVal (c :: rest) : Int)
      else Option.none

namespace Temp

/-- A sentence as produced by `read_conll_file` in `temp.py`:
a dict with parallel `tokens` and `ner_tags` lists. -/
structure Sentence where
  tokens : List Str
  ner_tags : List Str
deriving DecidableEq, Repr

/-- The loop body state of `read_conll_file` (`temp.py` lines 7-32): the
accumulated `tokens` and `tags` of the sentence currently being read.
A stripped-blank line flushes a nonempty accumulator as one sentence; a
non-blank line contributes a (token, tag) pair iff it splits into exactly
two tab-separated fields; after the loop a nonempty accumulator is
flushed as a final sentence. -/
def read_aux : List Str → List Str → List Str → List Sentence
  | [], toks, tags => if toks.isEmpty then [] else [⟨toks, tags⟩]
  | l :: rest, toks, tags =>
    if (strip l).isEmpty then
      if toks.isEmpty then read_aux rest toks tags
      else ⟨toks, tags⟩ :: read_aux rest [] []
    else
      match splitTab (strip l) with
      | [token, tag] => read_aux rest (toks ++ [token]) (tags ++ [tag])
      | _ => read_aux rest toks tags

/-- `read_conll_file` (`temp.py` lines 7-32), on a file given as its list
of lines. -/
def read_conll_file (lines : List Str) : List Sentence :=
  read_aux lines [] []

/-- `dump_conll_file` (`temp.py` lines 34-39), as the list of lines it
writes: for each sentence one `token TAB tag` line per zipped
(token, tag) pair, followed by one blank line. -/
def dump_conll_file (sentences : List Sentence) : List Str :=
  sentences.flatMap
    (fun s => (s.tokens.zip s.ner_tags).map (fun p => p.1 ++ '\t' :: p.2) ++ [[]])

/-- `idxs = list(range(len(test)))` (`temp.py` line 58). -/
def idxs (n : Nat) : List Nat := List.range n

/-- `idxs_val = [idx for idx in idxs if idx not in idxs_test]`
(`temp.py` line 60), with the result of the external
`random.sample(idxs, int(len(idxs)*0.2))` call passed in as `idxs_test`. -/
def idxs_val (n : Nat) (idxs_test : List Nat) : List Nat :=
  (idxs n).filter (fun i => decide (i ∉ idxs_test))

/-- `Dataset.select(indices)`: the rows at the given indices, in order.
(The real `select` raises on an out-of-range index; the claims only use it
with in-range indices, under which it equals this lookup.) -/
def select (ds : List Sentence) (is : List Nat) : List Sentence :=
  is.filterMap (fun i => ds[i]?)

/-- The in-memory `test` dataset of `temp.py` lines 52-55: it is rebuilt
from `train` (the comprehension iterates over `train`, not `test`), so the
parsed test file `testS` is unused. -/
def script_test_dataset (trainS _testS : List Sentence) : List Sentence :=
  trainS

/-- The `val` output of the split (`temp.py` lines 57-62, 65-68):
`test.select(idxs_val)` where `test` is the dataset of lines 52-55 and
`idxs_val` is the complement of the sampled `idxs_test`. -/
def script_val_output (trainS testS : List Sentence) (idxs_test : List Nat) :
    List Sentence :=
  select (script_test_dataset trainS testS)
    (idxs_val (script_test_dataset trainS testS).length idxs_test)

/-- The `test` output of the split (`temp.py` lines 57-59, 63, 70-73):
`test.select(idxs_test)` where `test` is the dataset of lines 52-55. -/
def script_test_output (trainS testS : List Sentence) (idxs_test : List Nat) :
    List Sentence :=
  select (script_test_dataset trainS testS) idxs_test

/-- A line is blank for `read_conll_file` iff it strips to the empty
string. -/
def blankLine (l : Str) : Bool := (strip l).isEmpty

/-- Number of blank-line-delimited groups of non-blank lines, with a
trailing group not followed by a blank line counting as one group.
`inGroup` records whether we are currently inside a group. -/
def countGroupsFrom : Bool → List Str → Nat
  | inGroup, [] => if inGroup then 1 else 0
  | inGroup, l :: rest =>
    if blankLine l then
      if inGroup then 1 + countGroupsFrom false rest else countGroupsFrom false rest
    else countGroupsFrom true rest

/-- Number of blank-line-delimited groups of non-blank lines in a file. -/
def countGroups (lines : List Str) : Nat := countGroupsFrom false lines

/-- A line is valid tab-separated input when it is blank or splits into
exactly two tab-separated fields after stripping. -/
def validLine (l : Str) : Prop :=
  blankLine l = true ∨ (splitTab (strip l)).length = 2

/-- A token that survives the dump/read round trip: nonempty, free of tab,
newline and carriage return, and not starting with whitespace (leading
whitespace would be stripped away with the line). -/
def goodTok (t : Str) : Prop :=
  t ≠ [] ∧ (∀ c ∈ t, c ≠ '\t' ∧ c ≠ '\n' ∧ c ≠ '\r') ∧ isPySpace (t.headD ' ') = false

/-- A tag that survives the dump/read round trip: nonempty, free of tab,
newline and carriage return, and not ending with whitespace. -/
def goodTag (g : Str) : Prop :=
  g ≠ [] ∧ (∀ c ∈ g, c ≠ '\t' ∧ c ≠ '\n' ∧ c ≠ '\r') ∧ isPySpace (g.getLastD ' ') = false

/-- A sentence that survives the dump/read round trip: at least one token,
equally many tokens and tags, and every token/tag well behaved. -/
def goodSentence (s : Sentence) : Prop :=
  s.tokens ≠ [] ∧ s.tokens.length = s.ner_tags.length ∧
    (∀ t ∈ s.tokens, goodTok t) ∧ (∀ g ∈ s.ner_tags, goodTag g)

instance : DecidablePred validLine := fun _ => by unfold validLine; infer_instance
instance : DecidablePred goodTok := fun _ => by unfold goodTok; infer_instance
instance : DecidablePred goodTag := fun _ => by unfold goodTag; infer_instance
instance : DecidablePred goodSentence := fun _ => by unfold goodSentence; infer_instance

/-- The (token, tag) pairs contributed by the lines of a file: one pair
per non-blank line that splits into exactly two tab-separated fields. -/
def validPairs (lines : List Str) : List (Str × Str) :=
  lines.filterMap (fun l =>
    if (strip l).isEmpty then Option.none
    else
      match splitTab (strip l) with
      | [t, g] => Option.some (t, g)
      | _ => Option.none)

end Temp

namespace LoadModel

/-- A Python value passed as the `quantization` argument: `None`, an int,
or a string (the two forms the code normalises; other types fail the
assert anyway and are outside the claims). -/
inductive PyVal
  | vNone
  | vInt (n : Int)
  | vStr (s : String)
deriving DecidableEq, Repr

/-- A Python exception, with its message. -/
inductive PyErr
  | valueError (msg : String)
  | assertionError (msg : String)
  | attributeError (msg : String)
deriving DecidableEq, Repr

/-- Whether an `Except` models a raised Python exception. -/
def isErr : Except PyErr α → Bool
  | .error _ => true
  | .ok _ => false

instance {ε α : Type} [DecidableEq ε] [DecidableEq α] :
    DecidableEq (Except ε α) := fun a b =>
  match a, b with
  | .error x, .error y =>
    if h : x = y then .isTrue (by rw [h])
    else .isFalse (fun hc => by cases hc; exact h rfl)
  | .ok x, .ok y =>
    if h : x = y then .isTrue (by rw [h])
    else .isFalse (fun hc => by cases hc; exact h rfl)
  | .error _, .ok _ => .isFalse (fun hc => by cases hc)
  | .ok _, .error _ => .isFalse (fun hc => by cases hc)

/-- The device map returned by `get_device_map`: the string `"auto"`,
Python `None`, or a dict placing the whole model on one local rank. -/
inductive DeviceMap
  | auto
  | noMap
  | rankMap (r : Int)
deriving DecidableEq, Repr

/-- The message of the `ValueError` of `get_device_map`
(`load_model.py` lines 97-105), abridged. -/
def ddpErrorMessage : String :=
  "Found DDP environment and force_auto_device_map is set to True, this configuration is not supported."

/-- `get_device_map` (`load_model.py` lines 76-130).  The environment
variables `LOCAL_WORLD_SIZE` and `LOCAL_RANK` are passed as parsed
optional integers (`os.environ.get(var, default)` followed by `int`);
an unset variable defaults to 1 resp. 0. -/
def get_device_map (force_auto_device_map use_better_transformer : Bool)
    (local_world_size local_rank : Option Int) : Except PyErr DeviceMap :=
  if force_auto_device_map then
    let word_size := local_world_size.getD 1
    if word_size > 1 then .error (.valueError ddpErrorMessage)
    else .ok .auto
  else
    let word_size := local_world_size.getD 1
    if word_size > 1 then .ok (.rankMap (local_rank.getD 0))
    else if !use_better_transformer then .ok .noMap
    else .ok .auto

/-- Whether `LOCAL_WORLD_SIZE` is unset or at most 1. -/
def lwsAtMostOne (lws : Option Int) : Bool :=
  match lws with
  | Option.none => true
  | Option.some w => w ≤ 1

/-- Written from the words of claim C4, case by case in the claim's
order: auto when forced and `LOCAL_WORLD_SIZE` is 1 or unset; raise when
forced and `LOCAL_WORLD_SIZE` > 1; the local-rank map when not forced and
`LOCAL_WORLD_SIZE` > 1; auto when not forced, `LOCAL_WORLD_SIZE` at most
1 and better-transformer is requested; `None` otherwise. -/
def claimed_device_map (force_auto_device_map use_better_transformer : Bool)
    (local_world_size local_rank : Option Int) : Except PyErr DeviceMap :=
  if force_auto_device_map &&
      (local_world_size == Option.none || local_world_size == Option.some 1) then
    .ok .auto
  else if force_auto_device_map &&
      (match local_world_size with | Option.some w => w > 1 | Option.none => false) then
    .error (.valueError ddpErrorMessage)
  else if !force_auto_device_map &&
      (match local_world_size with | Option.some w => w > 1 | Option.none => false) then
    .ok (.rankMap (local_rank.getD 0))
  else if !force_auto_device_map && lwsAtMostOne local_world_size &&
      use_better_transformer then
    .ok .auto
  else
    .ok .noMap

/-- Claim C4 amended: the first case reads "unset or at most 1" instead
of "1 or unset" (the code treats any `LOCAL_WORLD_SIZE` not exceeding 1
like the default). -/
def amended_device_map (force_auto_device_map use_better_transformer : Bool)
    (local_world_size local_rank : Option Int) : Except PyErr DeviceMap :=
  if force_auto_device_map && lwsAtMostOne local_world_size then
    .ok .auto
  else if force_auto_device_map && !lwsAtMostOne local_world_size then
    .error (.valueError ddpErrorMessage)
  else if !force_auto_device_map && !lwsAtMostOne local_world_size then
    .ok (.rankMap (local_rank.getD 0))
  else if !force_auto_device_map && lwsAtMostOne local_world_size &&
      use_better_transformer then
    .ok .auto
  else
    .ok .noMap

/-- `int(quantization)` applied when `type(quantization) == str`
(`load_model.py` lines 209-210 and 495-496); a non-string value passes
through unchanged; an unparsable string raises `ValueError`. -/
def normalize_quantization (q : PyVal) : Except PyErr PyVal :=
  match q with
  | .vStr s =>
    match pyIntOfString s with
    | Option.some n => .ok (.vInt n)
    | Option.none => .error (.valueError "invalid literal for int with base 10")
  | v => .ok v

/-- The quantization validation shared by `load_model_for_training`
(lines 209-213) and `load_model_for_inference` (lines 495-499): string
arguments are converted with `int`, then the assert requires the value to
be `None`, 4 or 8. -/
def validate_quantization (q : PyVal) : Except PyErr (Option Int) :=
  match normalize_quantization q with
  | .error e => .error e
  | .ok .vNone => .ok Option.none
  | .ok (.vInt n) =>
    if n = 4 || n = 8 then .ok (Option.some n)
    else .error (.assertionError "Quantization must be 4 or 8, or None for FP32/FP16 training.")
  | .ok (.vStr _) =>
    .error (.assertionError "Quantization must be 4 or 8, or None for FP32/FP16 training.")

/-- The message of the `ValueError` of `load_model_for_training`
(lines 225-230), abridged. -/
def quantLoraErrorMessage : String :=
  "Quantization == 4/8 is only supported with LoRA."

/-- Everything `load_model_for_training` does before any model or
tokenizer loading (`load_model.py` lines 209-230): quantization
validation, the better-transformer warning (which only flips a local
flag), and the quantization-without-LoRA check. -/
def load_model_for_training_prevalidation (quantization : PyVal) (use_lora : Bool) :
    Except PyErr (Option Int) :=
  match validate_quantization quantization with
  | .error e => .error e
  | .ok q =>
    if q.isSome && !use_lora then .error (.valueError quantLoraErrorMessage)
    else .ok q

/-- Everything `load_model_for_inference` does before any model or
tokenizer loading (`load_model.py` lines 495-499): quantization
validation. -/
def load_model_for_inference_prevalidation (quantization : PyVal) :
    Except PyErr (Option Int) :=
  validate_quantization quantization

/-- The quantization arguments that pass the validation of both loaders:
`None`, the ints 4 and 8, and any string `int()` parses to 4 or 8. -/
def acceptedQuant (q : PyVal) : Prop :=
  q = .vNone ∨ q = .vInt 4 ∨ q = .vInt 8 ∨
    (∃ s, q = .vStr s ∧ (pyIntOfString s = Option.some 4 ∨ pyIntOfString s = Option.some 8))

/-- The result of the `torch_dtype` resolution
`torch_dtype if torch_dtype in ["auto", None] else getattr(torch, torch_dtype)`
(`load_model.py` lines 282-284 and 522-524): the string `"auto"`, `None`,
or a torch dtype object (named by a string). -/
inductive TDVal
  | auto
  | noneV
  | dtype (d : String)
deriving DecidableEq, Repr

/-- The `torch_dtype` resolution of lines 282-284 / 522-524.  `tattrs`
maps an attribute name to the torch dtype `getattr(torch, name)` returns,
`Option.none` modelling an `AttributeError`. -/
def resolve_torch_dtype (tattrs : String → Option String)
    (torch_dtype : Option String) : Except PyErr TDVal :=
  match torch_dtype with
  | Option.none => .ok .noneV
  | Option.some s =>
    if s = "auto" then .ok .auto
    else
      match tattrs s with
      | Option.some d => .ok (.dtype d)
      | Option.none => .error (.attributeError s)

/-- A `BitsAndBytesConfig` as built by the two loaders: the 4-bit config
records its `bnb_4bit_compute_dtype`. -/
inductive BnbConfig
  | four (compute_dtype : String)
  | eight
deriving DecidableEq, Repr

/-- The dtype resolution and quantization-config construction of
`load_model_for_training` (`load_model.py` lines 281-310).  For 4-bit
quantization with `torch_dtype` unset or `"auto"`, line 295 evaluates
`torch.bloat16` (sic). -/
def training_bnb_config (tattrs : String → Option String)
    (quantization : Option Int) (torch_dtype : Option String) :
    Except PyErr (Option BnbConfig) :=
  match resolve_torch_dtype tattrs torch_dtype with
  | .error e => .error e
  | .ok td =>
    match quantization with
    | Option.some n =>
      if n = 4 then
        match td with
        | .dtype d => .ok (Option.some (.four d))
        | _ =>
          match tattrs "bloat16" with
          | Option.some d => .ok (Option.some (.four d))
          | Option.none => .error (.attributeError "bloat16")
      else .ok (Option.some .eight)
    | Option.none => .ok Option.none

/-- The dtype resolution and quantization-config construction of
`load_model_for_inference` (`load_model.py` lines 522-562).  For 4-bit
quantization with `torch_dtype` unset or `"auto"`, line 546 evaluates
`getattr(torch, config.model_type)`. -/
def inference_bnb_config (tattrs : String → Option String) (model_type : String)
    (quantization : Option Int) (torch_dtype : Option String) :
    Except PyErr (Option BnbConfig) :=
  match resolve_torch_dtype tattrs torch_dtype with
  | .error e => .error e
  | .ok td =>
    match quantization with
    | Option.some n =>
      if n = 4 then
        match td with
        | .dtype d => .ok (Option.some (.four d))
        | _ =>
          match tattrs model_type with
          | Option.some d => .ok (Option.some (.four d))
          | Option.none => .error (.attributeError model_type)
      else .ok (Option.some .eight)
    | Option.none => .ok Option.none

/-- The tokenizer state relevant to the pad-token fallback.  `vocab` maps
a token string to its id.  In the Hugging Face API, `unk_token_id` is the
id of `unk_token` and is set exactly when `unk_token` is (likewise for
`eos`); the theorems take these contracts as hypotheses. -/
structure Tokenizer where
  pad_token_id : Option Int
  unk_token : Option String
  unk_token_id : Option Int
  eos_token : Option String
  eos_token_id : Option Int
  vocab : String → Option Int

/-- The pad-token fallback executed before both loaders return
(`load_model.py` lines 378-391 and 615-628): if `pad_token_id` is unset,
use the vocab entry `<|padding|>` when present (via
`add_special_tokens`, which sets the pad token to that existing vocab
entry), otherwise the unk token when the tokenizer has one, otherwise
the eos token. -/
def fix_pad_token (tk : Tokenizer) : Tokenizer :=
  if tk.pad_token_id.isSome then tk
  else if (tk.vocab "<|padding|>").isSome then
    { tk with pad_token_id := tk.vocab "<|padding|>" }
  else if tk.unk_token.isSome then
    { tk with pad_token_id := tk.unk_token_id }
  else
    { tk with pad_token_id := tk.eos_token_id }

end LoadModel

/-! ## Helper lemmas -/

open Temp LoadModel

theorem dropWhile_of_head (p : Char → Bool) (l : Str) (h : p (l.headD ' ') = false) :
    l.dropWhile p = l := by
  cases l with
  | nil => rfl
  | cons a t => simp only [List.headD] at h; simp [List.dropWhile_cons, h]

theorem headD_reverse (l : Str) (d : Char) : l.reverse.headD d = l.getLastD d := by
  rw [List.headD_eq_head?, List.head?_reverse, List.getLastD_eq_getLast?]

theorem strip_eq_self (l : Str) (h1 : isPySpace (l.headD ' ') = false)
    (h2 : isPySpace (l.getLastD ' ') = false) : strip l = l := by
  unfold strip
  rw [dropWhile_of_head _ _ h1, dropWhile_of_head, List.reverse_reverse]
  rw [headD_reverse]
  exact h2

theorem splitTab_no_tab (l : Str) (h : '\t' ∉ l) : splitTab l = [l] := by
  induction l with
  | nil => rfl
  | cons c rest ih =>
    have hc : c ≠ '\t' := fun hc => h (hc ▸ List.mem_cons_self c rest)
    have hr : '\t' ∉ rest := fun hr => h (List.mem_cons_of_mem c hr)
    simp [splitTab, hc, ih hr]

theorem splitTab_append (t r : Str) (h : '\t' ∉ t) :
    splitTab (t ++ '\t' :: r) = t :: splitTab r := by
  induction t with
  | nil => simp [splitTab]
  | cons c t' ih =>
    have hc : c ≠ '\t' := fun hc => h (hc ▸ List.mem_cons_self c t')
    have ht : '\t' ∉ t' := fun ht => h (List.mem_cons_of_mem c ht)
    show splitTab (c :: (t' ++ '\t' :: r)) = (c :: t') :: splitTab r
    rw [splitTab, ih ht]
    simp [hc]

theorem goodTok_no_tab {t : Str} (ht : goodTok t) : '\t' ∉ t :=
  fun hm => ((ht.2.1 '\t' hm).1 rfl)

theorem goodTag_no_tab {g : Str} (hg : goodTag g) : '\t' ∉ g :=
  fun hm => ((hg.2.1 '\t' hm).1 rfl)

theorem line_headD {t g : Str} (ht : t ≠ []) :
    (t ++ '\t' :: g).headD ' ' = t.headD ' ' := by
  cases t with
  | nil => exact absurd rfl ht
  | cons a t' => rfl

theorem line_getLastD {t g : Str} (hg : g ≠ []) :
    (t ++ '\t' :: g).getLastD ' ' = g.getLastD ' ' := by
  rw [List.getLastD_eq_getLast?, List.getLastD_eq_getLast?, List.getLast?_append]
  cases hg2 : g.getLast? with
  | none =>
    rcases g with _ | ⟨b, g'⟩
    · exact absurd rfl hg
    · simp [List.getLast?_eq_getLast] at hg2
  | some b =>
    rw [List.getLast?_cons, hg2]
    rfl

theorem strip_line {t g : Str} (ht : goodTok t) (hg : goodTag g) :
    strip (t ++ '\t' :: g) = t ++ '\t' :: g := by
  apply strip_eq_self
  · rw [line_headD ht.1]
    exact ht.2.2
  · rw [line_getLastD hg.1]
    exact hg.2.2

theorem splitTab_line {t g : Str} (ht : goodTok t) (hg : goodTag g) :
    splitTab (t ++ '\t' :: g) = [t, g] := by
  rw [splitTab_append t g (goodTok_no_tab ht), splitTab_no_tab g (goodTag_no_tab hg)]

theorem line_ne_nil {t g : Str} : t ++ '\t' :: g ≠ [] := by
  intro h
  cases t <;> simp at h

theorem read_aux_cons_pair {t g : Str} (rest : List Str) (toks tags : List Str)
    (ht : goodTok t) (hg : goodTag g) :
    read_aux ((t ++ '\t' :: g) :: rest) toks tags =
      read_aux rest (toks ++ [t]) (tags ++ [g]) := by
  rw [read_aux, strip_line ht hg]
  rw [if_neg (by simp [List.isEmpty_iff, line_ne_nil])]
  rw [splitTab_line ht hg]

theorem read_aux_pairs (ps : List (Str × Str)) (rest : List Str)
    (toks tags : List Str)
    (h : ∀ p ∈ ps, goodTok p.1 ∧ goodTag p.2) :
    read_aux (ps.map (fun p => p.1 ++ '\t' :: p.2) ++ rest) toks tags =
      read_aux rest (toks ++ ps.map Prod.fst) (tags ++ ps.map Prod.snd) := by
  induction ps generalizing toks tags with
  | nil => simp
  | cons p ps' ih =>
    obtain ⟨ht, hg⟩ := h p (List.mem_cons_self p ps')
    simp only [List.map_cons, List.cons_append]
    rw [read_aux_cons_pair _ _ _ ht hg,
      ih _ _ (fun q hq => h q (List.mem_cons_of_mem p hq))]
    simp

theorem read_aux_blank_flush (rest : List Str) (toks tags : List Str)
    (h : toks ≠ []) :
    read_aux ([] :: rest) toks tags = ⟨toks, tags⟩ :: read_aux rest [] [] := by
  have htoks : toks.isEmpty = false := by simp [List.isEmpty_iff, h]
  rw [read_aux]
  simp [strip, htoks]

theorem read_conll_dump (ss : List Sentence) (h : ∀ s ∈ ss, goodSentence s) :
    read_conll_file (dump_conll_file ss) = ss := by
  rw [read_conll_file]
  induction ss with
  | nil => rfl
  | cons s ss' ih =>
    obtain ⟨hne, hlen, htoks, htags⟩ := h s (List.mem_cons_self s ss')
    have hpairs : ∀ p ∈ s.tokens.zip s.ner_tags, goodTok p.1 ∧ goodTag p.2 := by
      intro p hp
      obtain ⟨h1, h2⟩ := List.of_mem_zip hp
      exact ⟨htoks _ h1, htags _ h2⟩
    have hdump : dump_conll_file (s :: ss') =
        (s.tokens.zip s.ner_tags).map (fun p => p.1 ++ '\t' :: p.2) ++
          ([] :: dump_conll_file ss') := by
      simp [dump_conll_file, List.flatMap_cons]
    rw [hdump, read_aux_pairs _ _ _ _ hpairs, List.nil_append, List.nil_append,
      List.map_fst_zip _ _ (le_of_eq hlen), List.map_snd_zip _ _ (le_of_eq hlen.symm),
      read_aux_blank_flush _ _ _ hne,
      ih (fun x hx => h x (List.mem_cons_of_mem s hx))]

theorem read_aux_length : ∀ (lines : List Str) (toks tags : List Str),
    (∀ l ∈ lines, validLine l) →
    (read_aux lines toks tags).length = countGroupsFrom (!toks.isEmpty) lines := by
  intro lines
  induction lines with
  | nil =>
    intro toks tags _
    rw [read_aux, countGroupsFrom]
    cases htoks : toks.isEmpty <;> simp [htoks]
  | cons l rest ih =>
    intro toks tags hv
    have hrest : ∀ x ∈ rest, validLine x := fun x hx => hv x (List.mem_cons_of_mem l hx)
    rw [read_aux, countGroupsFrom]
    by_cases hb : blankLine l = true
    · have hb2 : (strip l).isEmpty = true := hb
      rw [if_pos hb2, if_pos hb]
      cases htoks : toks.isEmpty with
      | true =>
        rw [if_pos rfl, ih toks tags hrest, htoks]
        simp
      | false =>
        rw [if_neg (by simp), List.length_cons, ih [] [] hrest]
        simp [Nat.add_comm]
    · have hb2 : (strip l).isEmpty = false := by
        rcases h3 : (strip l).isEmpty with _ | _
        · rfl
        · exact absurd h3 hb
      have hsplit : (splitTab (strip l)).length = 2 := by
        rcases hv l (List.mem_cons_self l rest) with h2 | h2
        · exact absurd h2 hb
        · exact h2
      obtain ⟨t, g, hsp⟩ : ∃ t g, splitTab (strip l) = [t, g] := by
        rcases h4 : splitTab (strip l) with _ | ⟨a, _ | ⟨b, _ | ⟨u, us⟩⟩⟩ <;>
          rw [h4] at hsplit <;> simp at hsplit
        exact ⟨a, b, rfl⟩
      rw [if_neg (by simp [hb2]), if_neg hb]
      simp only [hsp]
      rw [ih _ _ hrest]
      have hne : (toks ++ [t]).isEmpty = false := by simp
      rw [hne]
      rfl

theorem read_aux_flat : ∀ (lines : List Str) (toks tags : List Str),
    toks.length = tags.length →
    ((read_aux lines toks tags).all
        (fun s => s.tokens.length == s.ner_tags.length)) = true ∧
    (read_aux lines toks tags).flatMap (fun s => s.tokens.zip s.ner_tags) =
      toks.zip tags ++ validPairs lines := by
  intro lines
  induction lines with
  | nil =>
    intro toks tags hlen
    rw [read_aux]
    cases htoks : toks.isEmpty with
    | true =>
      have ht : toks = [] := List.isEmpty_iff.mp htoks
      have hg : tags = [] := by
        subst ht
        exact (List.length_eq_zero.mp hlen.symm)
      subst ht
      subst hg
      simp [validPairs]
    | false =>
      simp [validPairs, hlen]
  | cons l rest ih =>
    intro toks tags hlen
    rw [read_aux]
    by_cases hb : (strip l).isEmpty = true
    · have hvp : validPairs (l :: rest) = validPairs rest := by
        rw [validPairs, List.filterMap_cons]
        simp only [hb, if_true]
        rfl
      rw [hvp, if_pos hb]
      cases htoks : toks.isEmpty with
      | true =>
        have ht : toks = [] := List.isEmpty_iff.mp htoks
        have hg : tags = [] := by
          subst ht
          exact (List.length_eq_zero.mp hlen.symm)
        subst ht
        subst hg
        rw [if_pos rfl]
        simpa using ih [] [] rfl
      | false =>
        rw [if_neg (by simp [htoks])]
        obtain ⟨iha, ihf⟩ := ih [] [] rfl
        constructor
        · simp [List.all_cons, iha, hlen]
        · rw [List.flatMap_cons, ihf]
          simp
    · have hb2 : (strip l).isEmpty = false := by
        rcases h3 : (strip l).isEmpty with _ | _
        · rfl
        · exact absurd h3 hb
      rw [if_neg (by simp [hb2])]
      rcases hsp : splitTab (strip l) with _ | ⟨t, _ | ⟨g, _ | ⟨u, us⟩⟩⟩
      · have hvp : validPairs (l :: rest) = validPairs rest := by
          rw [validPairs, List.filterMap_cons]
          simp only [hb2, Bool.false_eq_true, if_false, hsp]
          rfl
        rw [hvp]
        simp only [hsp]
        exact ih toks tags hlen
      · have hvp : validPairs (l :: rest) = validPairs rest := by
          rw [validPairs, List.filterMap_cons]
          simp only [hb2, Bool.false_eq_true, if_false, hsp]
          rfl
        rw [hvp]
        simp only [hsp]
        exact ih toks tags hlen
      · have hvp : validPairs (l :: rest) = (t, g) :: validPairs rest := by
          rw [validPairs, List.filterMap_cons]
          simp only [hb2, Bool.false_eq_true, if_false, hsp]
          rfl
        rw [hvp]
        simp only [hsp]
        obtain ⟨iha, ihf⟩ := ih (toks ++ [t]) (tags ++ [g]) (by simp [hlen])
        refine ⟨iha, ?_⟩
        rw [ihf, List.zip_append hlen]
        simp
      · have hvp : validPairs (l :: rest) = validPairs rest := by
          rw [validPairs, List.filterMap_cons]
          simp only [hb2, Bool.false_eq_true, if_false, hsp]
          rfl
        rw [hvp]
        simp only [hsp]
        exact ih toks tags hlen

theorem select_subset (ds : List Sentence) (is : List Nat) :
    ∀ s ∈ select ds is, s ∈ ds := by
  intro s hs
  rw [select] at hs
  obtain ⟨i, _, hg⟩ := List.mem_filterMap.mp hs
  exact List.getElem?_mem hg

theorem filter_mem_perm (n : Nat) (ts : List Nat) (hnd : ts.Nodup)
    (hsub : ∀ i ∈ ts, i ∈ List.range n) :
    ((List.range n).filter (fun i => decide (i ∈ ts))).Perm ts := by
  apply List.perm_of_nodup_nodup_toFinset_eq
  · exact List.Nodup.filter _ (List.nodup_range n)
  · exact hnd
  · ext i
    simp only [List.mem_toFinset, List.mem_filter, decide_eq_true_eq]
    exact ⟨fun h => h.2, fun h => ⟨hsub i h, h⟩⟩

/-! ## Claim theorems -/

/-- C1 (counterexample): the round trip is not the identity for every
list of sentences.  A sentence with no tokens is written as a single
blank line and vanishes on re-reading. -/
theorem C1_roundtrip_counterexample :
    read_conll_file (dump_conll_file [(⟨[], []⟩ : Sentence)]) ≠
      [(⟨[], []⟩ : Sentence)] := by decide

/-- C1 (amended): writing sentences with `dump_conll_file` and re-reading
the produced file with `read_conll_file` yields the same token/tag
sequences, provided every sentence has at least one token and equally
many tokens and tags, no token or tag contains a tab, newline or carriage
return, every token is nonempty and does not start with whitespace, and
every tag is nonempty and does not end with whitespace. -/
theorem C1_roundtrip_amended (sentences : List Sentence)
    (h : ∀ s ∈ sentences, goodSentence s) :
    read_conll_file (dump_conll_file sentences) = sentences :=
  read_conll_dump sentences h

/-- C1 witness: the amended round trip at a concrete one-sentence input. -/
theorem C1_roundtrip_amended_witness :
    (∀ s ∈ [(⟨[['N', 'e', 'r']], [['O']]⟩ : Sentence)], goodSentence s) ∧
      read_conll_file (dump_conll_file [(⟨[['N', 'e', 'r']], [['O']]⟩ : Sentence)]) =
        [(⟨[['N', 'e', 'r']], [['O']]⟩ : Sentence)] :=
  ⟨by decide, C1_roundtrip_amended _ (by decide)⟩

/-- C3: for valid tab-separated input (every non-blank line splits into
exactly one token and one tag on a tab), the number of sentences returned
by `read_conll_file` equals the number of blank-line-delimited groups of
non-blank lines, a trailing group not followed by a blank line counting
as one group. -/
theorem C3_sentence_count (lines : List Str) (h : ∀ l ∈ lines, validLine l) :
    (read_conll_file lines).length = countGroups lines := by
  rw [read_conll_file, countGroups, read_aux_length lines [] [] h]
  rfl

/-- C3 witness: a concrete two-group file, including a trailing group not
followed by a blank line. -/
theorem C3_sentence_count_witness :
    (∀ l ∈ [['a', '\t', 'B'], [], ['c', '\t', 'D']], validLine l) ∧
      (read_conll_file [['a', '\t', 'B'], [], ['c', '\t', 'D']]).length =
        countGroups [['a', '\t', 'B'], [], ['c', '\t', 'D']] :=
  ⟨by decide, C3_sentence_count _ (by decide)⟩

/-- C2: for any result `ts` of the external
`random.sample(idxs, int(len(idxs)*0.2))` call — by its contract a list
of distinct indices drawn from `idxs = range(n)` — the validation index
list is disjoint from `ts`, together with `ts` it covers the full index
set, its length is the complement `n - ts.length` (so the two sizes add
up to `n`), and it has no duplicates. -/
theorem C2_split_partition (n : Nat) (ts : List Nat) (hnd : ts.Nodup)
    (hsub : ∀ i ∈ ts, i ∈ idxs n) :
    (∀ i ∈ ts, i ∉ idxs_val n ts) ∧
      (∀ i ∈ idxs n, i ∈ ts ∨ i ∈ idxs_val n ts) ∧
      (idxs_val n ts).length + ts.length = n ∧
      (idxs_val n ts).Nodup := by
  refine ⟨?_, ?_, ?_, ?_⟩
  · intro i hi hmem
    have h2 := (List.mem_filter.mp hmem).2
    simp only [decide_eq_true_eq] at h2
    exact h2 hi
  · intro i hi
    by_cases hts : i ∈ ts
    · exact Or.inl hts
    · exact Or.inr (List.mem_filter.mpr ⟨hi, by simp [hts]⟩)
  · have h1 := List.length_eq_length_filter_add (l := List.range n)
      (fun i => decide (i ∉ ts))
    have h2 : (List.filter (fun x => !decide (x ∉ ts)) (List.range n)) =
        (List.filter (fun x => decide (x ∈ ts)) (List.range n)) := by
      apply List.filter_congr
      intro x _
      simp
    have h3 : ((List.range n).filter (fun i => decide (i ∈ ts))).length =
        ts.length :=
      (filter_mem_perm n ts hnd hsub).length_eq
    rw [List.length_range] at h1
    have hB : (List.filter (fun x => !decide (x ∉ ts)) (List.range n)).length =
        ts.length := by rw [h2, h3]
    rw [idxs_val, idxs]
    omega
  · rw [idxs_val, idxs]
    exact List.Nodup.filter _ (List.nodup_range n)

/-- C2 witness: the partition at the concrete input n = 5,
sampled test indices [2, 0]. -/
theorem C2_split_partition_witness :
    ([2, 0] : List Nat).Nodup ∧ (∀ i ∈ [2, 0], i ∈ idxs 5) ∧
      ((∀ i ∈ [2, 0], i ∉ idxs_val 5 [2, 0]) ∧
        (∀ i ∈ idxs 5, i ∈ [2, 0] ∨ i ∈ idxs_val 5 [2, 0]) ∧
        (idxs_val 5 [2, 0]).length + ([2, 0] : List Nat).length = 5 ∧
        (idxs_val 5 [2, 0]).Nodup) :=
  ⟨by decide, by decide, C2_split_partition 5 [2, 0] (by decide) (by decide)⟩

/-- C8: the validation and test outputs of the split in `temp.py` are
built from the sentences read from the training file only: they do not
depend on the parsed test file at all (lines 52-55 rebuild the in-memory
`test` dataset from `train`), and every sentence they contain is a
sentence of the parsed training file. -/
theorem C8_outputs_from_train (trainS testS testS2 : List Sentence)
    (ts : List Nat) :
    script_val_output trainS testS ts = script_val_output trainS testS2 ts ∧
      script_test_output trainS testS ts = script_test_output trainS testS2 ts ∧
      (∀ s ∈ script_val_output trainS testS ts, s ∈ trainS) ∧
      (∀ s ∈ script_test_output trainS testS ts, s ∈ trainS) :=
  ⟨rfl, rfl, select_subset trainS _, select_subset trainS _⟩

/-- C7: every sentence returned by `read_conll_file` has equally long
`tokens` and `ner_tags` lists, and the (token, tag) pairs of the returned
sentences, in order, are exactly the pairs of the non-blank lines that
split into exactly two tab-separated fields — so each such line
contributes its pair to exactly one sentence. -/
theorem C7_parse_invariants (lines : List Str) :
    ((read_conll_file lines).all
        (fun s => s.tokens.length == s.ner_tags.length)) = true ∧
      (read_conll_file lines).flatMap (fun s => s.tokens.zip s.ner_tags) =
        validPairs lines := by
  have h := read_aux_flat lines [] [] rfl
  rw [read_conll_file]
  exact ⟨h.1, by simpa using h.2⟩

/-- C4 (counterexample): the claim's case enumeration is wrong at
`force_auto_device_map = True` with `LOCAL_WORLD_SIZE = 0`: none of its
four explicit cases applies ("1 or unset" excludes 0), so the claim's
"None otherwise" covers it, but the code returns "auto" (the code takes
the auto branch for any world size not exceeding 1). -/
theorem C4_device_map_counterexample :
    get_device_map true false (Option.some 0) Option.none ≠
      claimed_device_map true false (Option.some 0) Option.none := by decide

/-- C4 (amended): `get_device_map` is determined by its two arguments and
the two environment variables, per the claim's enumeration with the first
case reading "unset or at most 1" instead of "1 or unset": auto when
forced and `LOCAL_WORLD_SIZE` is unset or at most 1; `ValueError` when
forced and `LOCAL_WORLD_SIZE` > 1; a single-rank device map when not
forced and `LOCAL_WORLD_SIZE` > 1; auto when not forced,
`LOCAL_WORLD_SIZE` at most 1 and better-transformer is requested;
`None` otherwise. -/
theorem C4_device_map_amended (force useBT : Bool) (lws lr : Option Int) :
    get_device_map force useBT lws lr = amended_device_map force useBT lws lr := by
  rcases lws with _ | w
  · cases force <;> cases useBT <;> rfl
  · by_cases hw : w > 1
    · have hle : lwsAtMostOne (Option.some w) = false := by
        simp only [lwsAtMostOne, decide_eq_false_iff_not]
        omega
      cases force <;> cases useBT <;>
        simp [get_device_map, amended_device_map, hle, hw, Option.getD]
    · have hle : lwsAtMostOne (Option.some w) = true := by
        simp only [lwsAtMostOne, decide_eq_true_eq]
        omega
      cases force <;> cases useBT <;>
        simp [get_device_map, amended_device_map, hle, hw, Option.getD]

/-- C5 (counterexample): the string "04" is none of None, 4, 8, "4", "8",
yet neither loader raises on it: `int("04")` is 4, which passes the
assert, so both prevalidations succeed. -/
theorem C5_quant_validation_counterexample :
    (PyVal.vStr "04" ≠ PyVal.vNone ∧ PyVal.vStr "04" ≠ PyVal.vInt 4 ∧
        PyVal.vStr "04" ≠ PyVal.vInt 8 ∧ PyVal.vStr "04" ≠ PyVal.vStr "4" ∧
        PyVal.vStr "04" ≠ PyVal.vStr "8") ∧
      load_model_for_training_prevalidation (PyVal.vStr "04") true =
        Except.ok (Option.some 4) ∧
      load_model_for_inference_prevalidation (PyVal.vStr "04") =
        Except.ok (Option.some 4) := by decide

/-- C5 (amended): for every quantization argument that is not None, not
the int 4 or 8, and not a string that Python `int()` parses to 4 or 8,
both `load_model_for_training` and `load_model_for_inference` raise
before any model or tokenizer loading is attempted. -/
theorem C5_quant_validation_amended (q : PyVal) (use_lora : Bool)
    (h : ¬ acceptedQuant q) :
    isErr (load_model_for_training_prevalidation q use_lora) = true ∧
      isErr (load_model_for_inference_prevalidation q) = true := by
  have hval : isErr (validate_quantization q) = true := by
    cases q with
    | vNone => exact absurd (Or.inl rfl) h
    | vInt n =>
      have h4 : ¬(n = 4) := fun he => h (Or.inr (Or.inl (by rw [he])))
      have h8 : ¬(n = 8) := fun he => h (Or.inr (Or.inr (Or.inl (by rw [he]))))
      simp [validate_quantization, normalize_quantization, h4, h8, isErr]
    | vStr s =>
      rcases hp : pyIntOfString s with _ | m
      · simp [validate_quantization, normalize_quantization, hp, isErr]
      · have hm4 : ¬(m = 4) := fun he =>
          h (Or.inr (Or.inr (Or.inr ⟨s, rfl, Or.inl (by rw [hp, he])⟩)))
        have hm8 : ¬(m = 8) := fun he =>
          h (Or.inr (Or.inr (Or.inr ⟨s, rfl, Or.inr (by rw [hp, he])⟩)))
        simp [validate_quantization, normalize_quantization, hp, hm4, hm8, isErr]
  constructor
  · rcases hv : validate_quantization q with e | v
    · simp [load_model_for_training_prevalidation, hv, isErr]
    · rw [hv] at hval
      simp [isErr] at hval
  · exact hval

/-- C5 witness: the amended claim at the concrete rejected argument 3. -/
theorem C5_quant_validation_amended_witness :
    ¬ acceptedQuant (PyVal.vInt 3) ∧
      (isErr (load_model_for_training_prevalidation (PyVal.vInt 3) true) = true ∧
        isErr (load_model_for_inference_prevalidation (PyVal.vInt 3)) = true) :=
  ⟨by rintro (h | h | h | ⟨s, h, hm⟩) <;> simp at h,
    C5_quant_validation_amended (PyVal.vInt 3) true
      (by rintro (h | h | h | ⟨s, h, hm⟩) <;> simp at h)⟩

/-- C6: if quantization is the int 4 or 8 and `use_lora` is False,
`load_model_for_training` raises a `ValueError` during prevalidation,
before any model is loaded. -/
theorem C6_quant_without_lora_raises (n : Int) (h : n = 4 ∨ n = 8) :
    load_model_for_training_prevalidation (PyVal.vInt n) false =
      Except.error (PyErr.valueError quantLoraErrorMessage) := by
  rcases h with rfl | rfl <;> rfl

/-- C6 witness: the `ValueError` at quantization 4 without LoRA. -/
theorem C6_quant_without_lora_raises_witness :
    ((4 : Int) = 4 ∨ (4 : Int) = 8) ∧
      load_model_for_training_prevalidation (PyVal.vInt 4) false =
        Except.error (PyErr.valueError quantLoraErrorMessage) :=
  ⟨Or.inl rfl, C6_quant_without_lora_raises 4 (Or.inl rfl)⟩

/-- C9: with quantization 4 and `torch_dtype` unset or "auto",
`load_model_for_training` evaluates `torch.bloat16` (a name torch does
not define, hence `tattrs "bloat16" = none`) and
`load_model_for_inference` evaluates `getattr(torch, config.model_type)`;
for every model type that is not a torch attribute both fail with an
attribute-lookup error instead of constructing a `BitsAndBytesConfig`. -/
theorem C9_bnb_dtype_attribute_error (tattrs : String → Option String)
    (model_type : String) (torch_dtype : Option String)
    (hb : tattrs "bloat16" = Option.none)
    (hm : tattrs model_type = Option.none)
    (ht : torch_dtype = Option.none ∨ torch_dtype = Option.some "auto") :
    training_bnb_config tattrs (Option.some 4) torch_dtype =
      Except.error (PyErr.attributeError "bloat16") ∧
    inference_bnb_config tattrs model_type (Option.some 4) torch_dtype =
      Except.error (PyErr.attributeError model_type) := by
  rcases ht with rfl | rfl <;>
    simp [training_bnb_config, inference_bnb_config, resolve_torch_dtype, hb, hm]

/-- C9 witness: the attribute errors for a torch with no dtype attributes
at model type "llama" and unset `torch_dtype`. -/
theorem C9_bnb_dtype_attribute_error_witness :
    (fun _ : String => (Option.none : Option String)) "bloat16" = Option.none ∧
      (fun _ : String => (Option.none : Option String)) "llama" = Option.none ∧
      ((Option.none : Option String) = Option.none ∨
        (Option.none : Option String) = Option.some "auto") ∧
      (training_bnb_config (fun _ => Option.none) (Option.some 4) Option.none =
          Except.error (PyErr.attributeError "bloat16") ∧
        inference_bnb_config (fun _ => Option.none) "llama" (Option.some 4)
            Option.none =
          Except.error (PyErr.attributeError "llama")) :=
  ⟨rfl, rfl, Or.inl rfl,
    C9_bnb_dtype_attribute_error (fun _ => Option.none) "llama" Option.none
      rfl rfl (Or.inl rfl)⟩

/-- C10: whenever a loader returns, the tokenizer's `pad_token_id` is
non-None provided the vocabulary contains `<|padding|>`, or the tokenizer
has an unk token, or it has an eos token (given the Hugging Face contract
that a set unk/eos token has an id); and the fallback is applied in
exactly that order: the `<|padding|>` vocab entry first, then
`unk_token_id`, then `eos_token_id`. -/
theorem C10_pad_token_fallback (tk : Tokenizer)
    (hu : tk.unk_token.isSome = true → tk.unk_token_id.isSome = true)
    (he : tk.eos_token.isSome = true → tk.eos_token_id.isSome = true)
    (hany : (tk.vocab "<|padding|>").isSome = true ∨ tk.unk_token.isSome = true ∨
      tk.eos_token.isSome = true) :
    (fix_pad_token tk).pad_token_id.isSome = true ∧
      (tk.pad_token_id = Option.none → (tk.vocab "<|padding|>").isSome = true →
        (fix_pad_token tk).pad_token_id = tk.vocab "<|padding|>") ∧
      (tk.pad_token_id = Option.none → tk.vocab "<|padding|>" = Option.none →
        tk.unk_token.isSome = true →
        (fix_pad_token tk).pad_token_id = tk.unk_token_id) ∧
      (tk.pad_token_id = Option.none → tk.vocab "<|padding|>" = Option.none →
        tk.unk_token = Option.none →
        (fix_pad_token tk).pad_token_id = tk.eos_token_id) := by
  unfold fix_pad_token
  by_cases hp : tk.pad_token_id.isSome = true
  · rw [if_pos hp]
    refine ⟨hp, ?_, ?_, ?_⟩ <;>
      · intro hnone
        rw [hnone] at hp
        simp at hp
  · rw [if_neg hp]
    by_cases hv : (tk.vocab "<|padding|>").isSome = true
    · rw [if_pos hv]
      refine ⟨by simpa using hv, fun _ _ => rfl, ?_, ?_⟩ <;>
        · intro _ hvn
          rw [hvn] at hv
          simp at hv
    · rw [if_neg hv]
      by_cases hu2 : tk.unk_token.isSome = true
      · rw [if_pos hu2]
        refine ⟨by simpa using hu hu2, ?_, fun _ _ _ => rfl, ?_⟩
        · intro _ hvs
          exact absurd hvs hv
        · intro _ _ hun
          rw [hun] at hu2
          simp at hu2
      · rw [if_neg hu2]
        have heos : tk.eos_token.isSome = true := by
          rcases hany with h1 | h1 | h1
          · exact absurd h1 hv
          · exact absurd h1 hu2
          · exact h1
        refine ⟨by simpa using he heos, ?_, ?_, fun _ _ _ => rfl⟩
        · intro _ hvs
          exact absurd hvs hv
        · intro _ _ hus
          exact absurd hus hu2

/-- C10 witness: a tokenizer with no pad token, no `<|padding|>` vocab
entry and an unk token falls back to the unk token id. -/
theorem C10_pad_token_fallback_witness :
    ((Tokenizer.mk Option.none (Option.some "<unk>") (Option.some 0)
          Option.none Option.none (fun _ => Option.none)).unk_token.isSome = true →
        (Tokenizer.mk Option.none (Option.some "<unk>") (Option.some 0)
          Option.none Option.none (fun _ => Option.none)).unk_token_id.isSome = true) ∧
      (fix_pad_token (Tokenizer.mk Option.none (Option.some "<unk>") (Option.some 0)
          Option.none Option.none (fun _ => Option.none))).pad_token_id.isSome = true :=
  ⟨fun _ => rfl,
    (C10_pad_token_fallback
      (Tokenizer.mk Option.none (Option.some "<unk>") (Option.some 0)
        Option.none Option.none (fun _ => Option.none))
      (fun _ => rfl) (fun h => by simp at h) (Or.inr (Or.inl rfl))).1⟩

end SeqLabel
